import Mathlib

set_option maxHeartbeats 1000000

/-!
Shallow embedding of the bandwidth-throttle-stream core: the integer
partitioner (`divideIntegerIntoWholeParts`, `evenlyDistributeSets`,
`getPartitionedIntegerPartAtIndex`), and the throttle-group scheduler
(`BandwidthThrottleGroup`), together with a counts-level model of the
per-request channel (`BandwidthThrottle.process` / `transform`).

JS numbers are embedded as `Int` where the code only ever sees integers
and as `Rat` where fractional values arise (timer arithmetic, the delay
multiplier).  `Math.floor` of a quotient is `Int.fdiv`, `Math.ceil` of a
quotient is `ceilDiv` below, and the JS `%` operator on integers is
`Int.tmod` (remainder with the sign of the dividend).
-/

/-- Math.ceil (a / b) for integers, b ≠ 0 (ceiling division, any sign of b).
    The JS source computes this with float division followed by Math.ceil;
    on the integer inputs considered here the float result is exact.
    For b = 0 JS produces ±Infinity/NaN; this embedding returns 0 there and
    the theorems below show b = 0 is never reached on the relevant inputs. -/
def ceilDiv (a b : Int) : Int := -((-a).fdiv b)

/-- getFrequencyPerDivision from src/src/Util/evenlyDistributeSets.ts, with
    explicit recursion fuel (the JS recursion has no structural bound; the
    termination theorem below shows fuel = slotsFilledGoal suffices on every
    input with slotsAvailable ≥ slotsFilledGoal ≥ 1).  `none` = fuel ran out. -/
def getFrequencyPerDivision (fuel : Nat) (slotsAvailable slotsFilledGoal : Int)
    (frequencies : List Int) : Option (List Int) :=
  match fuel with
  | 0 => none
  | fuel + 1 =>
    let normalFrequency := ceilDiv slotsAvailable slotsFilledGoal
    let actualSlotsFilled := ceilDiv slotsAvailable normalFrequency
    let frequencies := frequencies ++ [normalFrequency]
    let remainder := slotsFilledGoal - actualSlotsFilled
    if remainder = 0 then some frequencies
    else getFrequencyPerDivision fuel (slotsAvailable - slotsFilledGoal)
      remainder frequencies

/-- The frequency-lookup loop inside evenlyDistributeSets: walks the
    frequency list carrying the running `indexReduction` and the mutated
    `adjustedLookupIndex` exactly as the JS `for ... of` loop does. -/
def distributeLookup (lessValue moreValue : Int) :
    List Int → Int → Int → Int
  | [], _, _ => moreValue
  | frequency :: rest, indexReduction, adjustedLookupIndex =>
    let adjusted := adjustedLookupIndex - indexReduction
    if adjusted.tmod frequency = 0 then lessValue
    else distributeLookup lessValue moreValue rest
      (indexReduction + adjusted.fdiv frequency) adjusted

/-- evenlyDistributeSets from src/src/Util/evenlyDistributeSets.ts.  Sets are
    (count, value) pairs.  The JS stable sort of the two-element array by
    ascending count swaps exactly when setA's count exceeds setB's.  The
    fuel-exhausted branch is unreachable for the inputs produced by
    `divideIntegerIntoWholeParts` (see the termination theorem). -/
def evenlyDistributeSets (setA setB : Int × Int) (lookupIndex : Int) : Int :=
  let sorted := if setA.1 > setB.1 then (setB, setA) else (setA, setB)
  let lessCommonSet := sorted.1
  let moreCommonSet := sorted.2
  if lessCommonSet.1 = 0 then moreCommonSet.2
  else
    let totalLength := setA.1 + setB.1
    match getFrequencyPerDivision lessCommonSet.1.toNat totalLength
        lessCommonSet.1 [] with
    | some frequencies =>
      distributeLookup lessCommonSet.2 moreCommonSet.2 frequencies 0 lookupIndex
    | none =>
      distributeLookup lessCommonSet.2 moreCommonSet.2 [] 0 lookupIndex

/-- divideIntegerIntoWholeParts (src/src/Util, cited in partitionInteger.ts):
    d = Math.floor(value / partsCount), r = value % partsCount, returning
    [[partsCount - r, d], [r, r > 0 ? d + 1 : 0]]. -/
def divideIntegerIntoWholeParts (value partsCount : Int) :
    (Int × Int) × (Int × Int) :=
  let d := value.fdiv partsCount
  let r := value.tmod partsCount
  ((partsCount - r, d), (r, if r > 0 then d + 1 else 0))

/-- getPartitionedIntegerPartAtIndex from src/lib/Util: composes
    divideIntegerIntoWholeParts with evenlyDistributeSets. -/
def getPartitionedIntegerPartAtIndex (value partsCount index : Int) : Int :=
  let sets := divideIntegerIntoWholeParts value partsCount
  evenlyDistributeSets sets.1 sets.2 index

/-- Sum of all parts of `value` over indices 0..partsCount-1. -/
def partitionSum (value partsCount : Int) : Int :=
  ((List.range partsCount.toNat).map
    (fun (i : Nat) => getPartitionedIntegerPartAtIndex value partsCount (i : Int))).sum

/-- The fragment of JS number semantics needed for byte amounts flowing from
    the scheduler into a channel: a finite rational, Infinity (the default
    argument of process), or NaN (produced on the unthrottled scheduling
    path, where bytesPerSecond = Infinity is fed through the partitioner). -/
inductive JNum where
  | nan : JNum
  | inf : JNum
  | q : Rat → JNum
  deriving DecidableEq

/-- src/lib/Config.ts.  bytesPerSecond : number, default Infinity, is
    embedded as Option Int (none = Infinity); ticksPerSecond defaults
    to 40. -/
structure Config where
  bytesPerSecond : Option Int := none
  ticksPerSecond : Int := 40
  deriving DecidableEq

/-- Config#isThrottled: bytesPerSecond < Infinity. -/
def Config.isThrottled (c : Config) : Bool := c.bytesPerSecond.isSome

/-- Config#tickDurationMs = 1000 / ticksPerSecond, as an exact rational.
    (At ticksPerSecond = 0 JS yields Infinity while Rat division yields 0;
    no theorem below evaluates tickDurationMs at ticksPerSecond ≤ 0.) -/
def Config.tickDurationMs (c : Config) : Rat := 1000 / (c.ticksPerSecond : Rat)

/-- IConfig: the consumer options object; each field is optional (the outer
    Option records whether the property is present on the object). -/
structure IConfig where
  bytesPerSecond : Option (Option Int) := none
  ticksPerSecond : Option Int := none

/-- Object.assign(config, options): copies the properties present on
    `options` over `config`.  Used by the constructor and by configure(). -/
def assignConfig (c : Config) (o : IConfig) : Config :=
  { bytesPerSecond := o.bytesPerSecond.getD c.bytesPerSecond
    ticksPerSecond := o.ticksPerSecond.getD c.ticksPerSecond }

/-- Counts-level state of one BandwidthThrottle (src/lib/BandwidthThrottle.ts):
    the identity of the stream object, the total number of bytes buffered so
    far (pendingBytesCount) and the read cursor (pendingBytesReadIndex).
    Cursors are rationals because the scheduler multiplies tick allowances
    by a rational delay multiplier. -/
structure Channel where
  id : Nat
  pendingBytesCount : Rat
  pendingBytesReadIndex : Rat
  deriving DecidableEq

/-- BandwidthThrottle#process(maxBytesToProcess), lines 103-147 of
    src/lib/BandwidthThrottle.ts: endReadIndex = Math.min(read + max, count)
    (the match arms spell out Math.min for the three shapes of maxBytes);
    the cursor advances only when more than zero bytes are pushed; then the
    request ends (handleRequestStop + destroy) unless data remains pending
    or the throttle is unbounded.  Results: updated channel, the pushed byte
    count (the JS return value), and the emitted stop signal. -/
def channelProcess (c : Channel) (maxBytesToProcess : JNum)
    (throttled : Bool) : Channel × JNum × Bool :=
  match maxBytesToProcess with
  | .nan =>
    (c, .nan, !(decide (c.pendingBytesReadIndex < c.pendingBytesCount) || !throttled))
  | .inf =>
    let endReadIndex := c.pendingBytesCount
    let len := endReadIndex - c.pendingBytesReadIndex
    let c' := if 0 < len then { c with pendingBytesReadIndex := endReadIndex } else c
    (c', .q len, !(decide (c'.pendingBytesReadIndex < c'.pendingBytesCount) || !throttled))
  | .q x =>
    let endReadIndex := min (c.pendingBytesReadIndex + x) c.pendingBytesCount
    let len := endReadIndex - c.pendingBytesReadIndex
    let c' := if 0 < len then { c with pendingBytesReadIndex := endReadIndex } else c
    (c', .q len, !(decide (c'.pendingBytesReadIndex < c'.pendingBytesCount) || !throttled))

/-- BandwidthThrottle#transform(chunk) at the counts level (lines 167-188):
    buffers the chunk (pendingBytesCount += chunk.length) and, when the
    throttle is unbounded, immediately drains the queue via process() with
    its default argument Infinity.  The handleRequestStart callback is
    modelled at the group level (event `start`). -/
def channelTransform (c : Channel) (chunkLength : Nat) (throttled : Bool) : Channel :=
  let c' := { c with pendingBytesCount := c.pendingBytesCount + chunkLength }
  if throttled then c' else (channelProcess c' .inf throttled).1

/-- One call into a channel: a chunk arriving (transform) or a drain
    instruction (process). -/
inductive ChannelCall where
  | transform (chunkLength : Nat)
  | process (maxBytesToProcess : JNum)

/-- Replay a sequence of transform/process calls against a channel. -/
def runChannelCalls (throttled : Bool) : Channel → List ChannelCall → Channel
  | c, [] => c
  | c, .transform n :: rest =>
    runChannelCalls throttled (channelTransform c n throttled) rest
  | c, .process m :: rest =>
    runChannelCalls throttled ((channelProcess c m throttled).1) rest

/-- State of a BandwidthThrottleGroup (src/src/BandwidthThrottleGroup.ts).
    clockIntervalId : Option Unit embeds the NodeJS.Timeout-or-null field;
    liveTimers counts the interval timers currently scheduled (setInterval
    increments it, clearInterval of a held id decrements it). -/
structure GroupState where
  config : Config
  inFlightRequests : List Channel
  clockIntervalId : Option Unit
  liveTimers : Nat
  lastTickTime : Rat
  tickIndex : Nat
  secondIndex : Nat
  deriving DecidableEq

/-- BandwidthThrottleGroup#hasTicked: lastTickTime > -1. -/
def GroupState.hasTicked (s : GroupState) : Bool := decide (s.lastTickTime > -1)

/-- Array.prototype.indexOf on the in-flight list, comparing by object
    identity (embedded as the channel id): index of the first occurrence,
    or -1 when absent. -/
def jsIndexOf (l : List Channel) (x : Nat) : Int :=
  match l.findIdx? (fun c => c.id == x) with
  | some i => (i : Int)
  | none => -1

/-- Array.prototype.splice(start, 1): removes one element at `start`; a
    negative `start` counts back from the end of the array, so
    splice(-1, 1) removes the LAST element of a non-empty array. -/
def jsSpliceRemoveOne (l : List Channel) (start : Int) : List Channel :=
  let actualStart := if start < 0 then (max ((l.length : Int) + start) 0).toNat
    else min start.toNat l.length
  l.eraseIdx actualStart

/-- BandwidthThrottleGroup#stopClock (lines 150-156): clearInterval on the
    held id (a no-op when the id is null), then clears the id and resets
    both counters.  lastTickTime is NOT reset. -/
def stopClock (s : GroupState) : GroupState :=
  { s with
    liveTimers := if s.clockIntervalId.isSome then s.liveTimers - 1 else s.liveTimers
    clockIntervalId := none
    tickIndex := 0
    secondIndex := 0 }

/-- handleRequestStart (lines 91-99): push the channel; start the clock
    (setInterval) unless an interval id is already held. -/
def handleRequestStart (s : GroupState) (c : Channel) : GroupState :=
  let s := { s with inFlightRequests := s.inFlightRequests ++ [c] }
  if s.clockIntervalId.isSome then s
  else { s with clockIntervalId := some (), liveTimers := s.liveTimers + 1 }

/-- handleRequestStop (lines 110-117): splice(indexOf(throttle), 1) followed
    by stopClock when no in-flight requests remain.  When the channel is not
    in the list, indexOf yields -1 and splice(-1, 1) removes the last
    element. -/
def handleRequestStop (s : GroupState) (x : Nat) : GroupState :=
  let inFlight := jsSpliceRemoveOne s.inFlightRequests (jsIndexOf s.inFlightRequests x)
  let s := { s with inFlightRequests := inFlight }
  if s.inFlightRequests.length = 0 then stopClock s else s

/-- The per-iteration allowance of processInFlightRequests (lines 193-210):
    two partitioner calls followed by the delay multiplier.  When the group
    is unbounded, bytesPerSecond = Infinity flows through the partitioner
    producing NaN. -/
def dispatchAmount (cfg : Config) (n : Nat) (period : Nat) (tickIndex : Nat)
    (i : Nat) (delayMultiplier : Rat) : JNum :=
  match cfg.bytesPerSecond with
  | none => .nan
  | some b =>
    let rotatedIndex := (i + period) % n
    let bytesPerRequestPerSecond :=
      getPartitionedIntegerPartAtIndex b (n : Int) (rotatedIndex : Int)
    let bytesPerRequestPerTick :=
      getPartitionedIntegerPartAtIndex bytesPerRequestPerSecond
        cfg.ticksPerSecond (tickIndex : Int)
    .q ((bytesPerRequestPerTick : Rat) * delayMultiplier)

/-- One iteration of the for-loop body of processInFlightRequests (lines
    188-211): reads the channel at index i, computes its allowance, calls
    process on it (the in-place mutation of the channel object is the
    List.set), and applies handleRequestStop when the channel signalled
    stop.  Returns the resulting group state and the dispatch-log entry. -/
def processOneStep (period : Nat) (delayMultiplier : Rat) (s : GroupState)
    (i : Nat) (h : i < s.inFlightRequests.length) :
    GroupState × (Nat × JNum) :=
  let c := s.inFlightRequests[i]
  let amount := dispatchAmount s.config s.inFlightRequests.length period
    s.tickIndex i delayMultiplier
  let result := channelProcess c amount s.config.isThrottled
  let s' := { s with inFlightRequests := s.inFlightRequests.set i result.1 }
  (if result.2.2 then handleRequestStop s' result.1.id else s', (c.id, amount))

/-- The for-loop of processInFlightRequests (lines 188-215): processes the
    channel at index i; when the process call shrinks the in-flight list
    (the channel finished and signalled stop) the same index is revisited
    (the i-- of line 213).  The JS loop terminates because 2*length - i
    strictly decreases; the explicit fuel makes the recursion structural,
    and the wrapper below supplies fuel 2*length + 1, which the loop
    lemmas show is never exhausted. -/
def processLoop (period : Nat) (delayMultiplier : Rat) :
    Nat → GroupState → Nat → List (Nat × JNum) → GroupState × List (Nat × JNum)
  | 0, s, _, acc => (s, acc)
  | fuel + 1, s, i, acc =>
    if h : i < s.inFlightRequests.length then
      let step := processOneStep period delayMultiplier s i h
      if step.1.inFlightRequests.length < s.inFlightRequests.length then
        processLoop period delayMultiplier fuel step.1 i (acc ++ [step.2])
      else
        processLoop period delayMultiplier fuel step.1 (i + 1) (acc ++ [step.2])
    else (s, acc)

/-- processInFlightRequests (lines 162-237).  `now` is the Date.now() value
    observed at this invocation.  Returns the new state together with the
    dispatch log of this invocation. -/
def processInFlightRequests (s : GroupState) (now : Rat) :
    GroupState × List (Nat × JNum) :=
  let elapsedTime := if s.hasTicked then now - s.lastTickTime else 0
  if s.config.isThrottled && s.hasTicked
      && decide (elapsedTime < s.config.tickDurationMs) then (s, [])
  else
    let delayMultiplier := max 1 (elapsedTime / s.config.tickDurationMs)
    let period := s.secondIndex % s.inFlightRequests.length
    let result := processLoop period delayMultiplier
      (2 * s.inFlightRequests.length + 1) s 0 []
    let s' := result.1
    if s'.clockIntervalId.isNone then (s', result.2)
    else
      let s'' :=
        if ((s'.tickIndex + 1 : Nat) : Int) = s'.config.ticksPerSecond then
          { s' with tickIndex := 0, secondIndex := s'.secondIndex + 1 }
        else { s' with tickIndex := s'.tickIndex + 1 }
      (( { s'' with lastTickTime :=
            if s''.hasTicked then s''.lastTickTime + elapsedTime else now } ),
        result.2)

/-- External stimuli driving a group: a channel signalling start (carrying
    the channel object), a channel signalling stop, and a firing of the
    interval timer (carrying the Date.now() reading). -/
inductive GroupEvent where
  | start (c : Channel)
  | stop (id : Nat)
  | tick (now : Rat)

/-- Apply one event to the group state. -/
def applyEvent (s : GroupState) : GroupEvent → GroupState
  | .start c => handleRequestStart s c
  | .stop x => handleRequestStop s x
  | .tick now => (processInFlightRequests s now).1

/-- Replay a sequence of events against the group state. -/
def runEvents (s : GroupState) : List GroupEvent → GroupState
  | [] => s
  | e :: rest => runEvents (applyEvent s e) rest

/-- new BandwidthThrottleGroup(options): Object.assign over the default
    Config; all counters at rest, no timer, lastTickTime = -1. -/
def initGroup (options : IConfig) : GroupState :=
  { config := assignConfig {} options
    inFlightRequests := []
    clockIntervalId := none
    liveTimers := 0
    lastTickTime := -1
    tickIndex := 0
    secondIndex := 0 }

/-- Total finite bytes in a dispatch log. -/
def dispatchTotal (log : List (Nat × JNum)) : Rat :=
  (log.map (fun p => match p.2 with | .q x => x | _ => 0)).sum

/-- A group configured at 14 bytes/second and 1 tick/second with thirty
    in-flight channels, each holding a large pending buffer (used to settle
    the one-second window accounting claim). -/
def exampleGroupC2 : GroupState :=
  runEvents (initGroup { bytesPerSecond := some (some 14), ticksPerSecond := some 1 })
    ((List.range 30).map
      (fun k => .start { id := k, pendingBytesCount := 1000000, pendingBytesReadIndex := 0 }))

/-- A concrete mid-flight group state: 10 bytes/second, 4 ticks/second, two
    in-flight channels with large buffers, clock running, about to process
    its first tick of this session (tickIndex 2, secondIndex 5). -/
def c4State : GroupState :=
  { config := { bytesPerSecond := some 10, ticksPerSecond := 4 }
    inFlightRequests := [{ id := 1, pendingBytesCount := 1000, pendingBytesReadIndex := 0 }, { id := 2, pendingBytesCount := 1000, pendingBytesReadIndex := 0 }]
    clockIntervalId := some ()
    liveTimers := 1
    lastTickTime := -1
    tickIndex := 2
    secondIndex := 5 }

/-- The clock/in-flight invariant of claim C5: the interval timer exists iff
    the in-flight set is non-empty, at most one interval timer is ever live,
    and while no timer runs both counters sit at 0. -/
def ClockInv (s : GroupState) : Prop :=
  (s.clockIntervalId.isSome = true ↔ s.inFlightRequests ≠ []) ∧
  s.liveTimers = (if s.clockIntervalId.isSome then 1 else 0) ∧
  (s.clockIntervalId = none → s.tickIndex = 0 ∧ s.secondIndex = 0)

/-- A running group with two distinct in-flight channels, the clock live and
    a due tick pending, used to instantiate the per-tick loop-accounting
    theorem of claim C8 at a concrete input. -/
def c8State : GroupState :=
  { config := { bytesPerSecond := none, ticksPerSecond := 1 }
    inFlightRequests := [{ id := 1, pendingBytesCount := 1, pendingBytesReadIndex := 0 }, { id := 2, pendingBytesCount := 100, pendingBytesReadIndex := 0 }]
    clockIntervalId := some ()
    liveTimers := 1
    lastTickTime := -1
    tickIndex := 0
    secondIndex := 0 }

/-! ### Arithmetic facts about ceiling division -/

theorem le_mul_ceilDiv {a b : Int} (hb : 0 < b) : a ≤ b * ceilDiv a b := by
  have h := Int.fmod_add_fdiv (-a) b
  have hr : 0 ≤ (-a).fmod b := Int.fmod_nonneg' (-a) hb
  have hx : b * ceilDiv a b = -(b * ((-a).fdiv b)) := by unfold ceilDiv; ring
  linarith

theorem mul_ceilDiv_sub_one_lt {a b : Int} (hb : 0 < b) :
    b * (ceilDiv a b - 1) < a := by
  have h := Int.fmod_add_fdiv (-a) b
  have hr : (-a).fmod b < b := Int.fmod_lt_of_pos (-a) hb
  have hx : b * (ceilDiv a b - 1) = -(b * ((-a).fdiv b)) - b := by
    unfold ceilDiv; ring
  linarith

theorem ceilDiv_le_iff {a b c : Int} (hb : 0 < b) :
    ceilDiv a b ≤ c ↔ a ≤ b * c := by
  constructor
  · intro h
    calc a ≤ b * ceilDiv a b := le_mul_ceilDiv hb
      _ ≤ b * c := mul_le_mul_of_nonneg_left h hb.le
  · intro h
    have h2 : b * (ceilDiv a b - 1) < b * c :=
      lt_of_lt_of_le (mul_ceilDiv_sub_one_lt hb) h
    have h3 := lt_of_mul_lt_mul_left h2 hb.le
    omega

theorem lt_ceilDiv_iff {a b c : Int} (hb : 0 < b) :
    c < ceilDiv a b ↔ b * c < a := by
  constructor
  · intro h
    have h1 : c ≤ ceilDiv a b - 1 := by omega
    have h2 : b * c ≤ b * (ceilDiv a b - 1) := mul_le_mul_of_nonneg_left h1 hb.le
    exact lt_of_le_of_lt h2 (mul_ceilDiv_sub_one_lt hb)
  · intro h
    have h2 : b * c < b * ceilDiv a b := lt_of_lt_of_le h (le_mul_ceilDiv hb)
    exact lt_of_mul_lt_mul_left h2 hb.le

theorem ceilDiv_pos {a b : Int} (hb : 0 < b) (ha : 0 < a) : 0 < ceilDiv a b :=
  (lt_ceilDiv_iff hb).mpr (by simpa using ha)

theorem ceilDiv_eq_one {a b : Int} (hb : 0 < b) (ha : 0 < a) (hab : a ≤ b) :
    ceilDiv a b = 1 := by
  have h1 : ceilDiv a b ≤ 1 := (ceilDiv_le_iff hb).mpr (by simpa using hab)
  have h2 : 0 < ceilDiv a b := ceilDiv_pos hb ha
  omega

theorem ceilDiv_one_right (a : Int) : ceilDiv a 1 = a := by
  unfold ceilDiv
  simp [Int.fdiv_one]

theorem ceilDiv_neg_self {g : Int} (hg : 0 < g) : ceilDiv (-g) g = -1 := by
  have h1 : ceilDiv (-g) g ≤ -1 :=
    (ceilDiv_le_iff hg).mpr (le_of_eq (by ring))
  have h2 : -2 < ceilDiv (-g) g :=
    (lt_ceilDiv_iff hg).mpr (by nlinarith)
  omega

theorem fdiv_negOne : ∀ x : Int, x.fdiv (-1) = -x
  | .ofNat 0 => rfl
  | .ofNat (n + 1) => by
    show Int.negSucc (n / 1) = -Int.ofNat (n + 1)
    rw [Nat.div_one, Int.negSucc_eq, Int.ofNat_eq_coe]
    push_cast
    ring
  | .negSucc n => by
    show Int.ofNat ((n + 1) / 1) = -Int.negSucc n
    rw [Nat.div_one, Int.negSucc_eq, Int.ofNat_eq_coe]
    push_cast
    ring

theorem ceilDiv_negOne (a : Int) : ceilDiv a (-1) = -a := by
  unfold ceilDiv
  rw [fdiv_negOne]
  ring

/-! ### Termination of getFrequencyPerDivision -/

/-- Core invariant argument: on every level of the recursion the goal g
    satisfies 1 ≤ g together with (1 ≤ A or A = -g); the goal strictly
    decreases, so fuel g.toNat suffices and the accumulated list grows. -/
theorem getFrequencyPerDivision_total :
    ∀ (gN : Nat) (g A : Int), g.toNat = gN → 1 ≤ g → (1 ≤ A ∨ A = -g) →
      ∀ (acc : List Int) (fuel : Nat), gN ≤ fuel →
        ∃ l, getFrequencyPerDivision fuel A g acc = some l ∧
          acc.length < l.length := by
  intro gN
  induction gN using Nat.strong_induction_on with
  | _ gN ih =>
    intro g A hgN hg hA acc fuel hfuel
    have hgN1 : 1 ≤ gN := by omega
    obtain ⟨fuel', rfl⟩ : ∃ f, fuel = f + 1 := ⟨fuel - 1, by omega⟩
    rcases hA with hA1 | hAeq
    · -- 1 ≤ A
      have hApos : 0 < A := hA1
      have hgpos : 0 < g := hg
      have hnf : 0 < ceilDiv A g := ceilDiv_pos hgpos hApos
      have hact1 : 0 < ceilDiv A (ceilDiv A g) := ceilDiv_pos hnf hApos
      have hactg : ceilDiv A (ceilDiv A g) ≤ g := by
        rw [ceilDiv_le_iff hnf, mul_comm]
        exact (ceilDiv_le_iff hgpos).mp le_rfl
      by_cases hrem : g - ceilDiv A (ceilDiv A g) = 0
      · refine ⟨acc ++ [ceilDiv A g], ?_, by simp⟩
        simp [getFrequencyPerDivision, hrem]
      · -- recurse
        have hg' : 1 ≤ g - ceilDiv A (ceilDiv A g) := by omega
        have hInv : 1 ≤ A - g ∨ A - g = -(g - ceilDiv A (ceilDiv A g)) := by
          by_cases hAg : g < A
          · left; omega
          · -- A ≤ g; A = g is impossible since then remainder = 0
            have hAle : A ≤ g := not_lt.mp hAg
            by_cases hAeq2 : A = g
            · exfalso
              apply hrem
              have h1 : ceilDiv A g = 1 := ceilDiv_eq_one hgpos hApos hAle
              rw [h1, ceilDiv_one_right, hAeq2]
              omega
            · have hAlt : A < g := lt_of_le_of_ne hAle hAeq2
              have h1 : ceilDiv A g = 1 := ceilDiv_eq_one hgpos hApos hAle
              right
              rw [h1, ceilDiv_one_right]
              omega
        have hmeas : (g - ceilDiv A (ceilDiv A g)).toNat < gN := by omega
        obtain ⟨l, hl, hlen⟩ := ih _ hmeas _ (A - g) rfl hg' hInv
          (acc ++ [ceilDiv A g]) fuel' (by omega)
        refine ⟨l, ?_, ?_⟩
        · simp only [getFrequencyPerDivision]
          rw [if_neg hrem]
          exact hl
        · have : acc.length < (acc ++ [ceilDiv A g]).length := by simp
          omega
    · -- A = -g: the recursion stops at this level
      subst hAeq
      have hgpos : 0 < g := hg
      have h1 : ceilDiv (-g) g = -1 := ceilDiv_neg_self hgpos
      have h2 : ceilDiv (-g) (ceilDiv (-g) g) = g := by
        rw [h1, ceilDiv_negOne]; ring
      refine ⟨acc ++ [ceilDiv (-g) g], ?_, by simp⟩
      simp [getFrequencyPerDivision, h2]

/-! ### The partitioner returns one of the two part values -/

theorem distributeLookup_mem (lv mv : Int) :
    ∀ (l : List Int) (red idx : Int),
      distributeLookup lv mv l red idx = lv ∨
        distributeLookup lv mv l red idx = mv
  | [], _, _ => Or.inr rfl
  | f :: rest, red, idx => by
    by_cases h : (idx - red).tmod f = 0
    · left
      simp [distributeLookup, h]
    · have := distributeLookup_mem lv mv rest (red + (idx - red).fdiv f) (idx - red)
      simpa [distributeLookup, h] using this

theorem evenlyDistributeSets_mem (sA sB : Int × Int) (idx : Int) :
    evenlyDistributeSets sA sB idx = sA.2 ∨
      evenlyDistributeSets sA sB idx = sB.2 := by
  unfold evenlyDistributeSets
  by_cases hgt : sA.1 > sB.1
  · simp only [if_pos hgt]
    by_cases h0 : sB.1 = 0
    · simp only [h0, if_pos rfl]
      exact Or.inl rfl
    · simp only [if_neg h0]
      rcases hm : getFrequencyPerDivision sB.1.toNat (sA.1 + sB.1) sB.1 [] with _ | l
      · exact (distributeLookup_mem sB.2 sA.2 [] 0 idx).symm
      · exact (distributeLookup_mem sB.2 sA.2 l 0 idx).symm
  · simp only [if_neg hgt]
    by_cases h0 : sA.1 = 0
    · simp only [h0, if_pos rfl]
      exact Or.inr rfl
    · simp only [if_neg h0]
      rcases hm : getFrequencyPerDivision sA.1.toNat (sA.1 + sB.1) sA.1 [] with _ | l
      · exact distributeLookup_mem sA.2 sB.2 [] 0 idx
      · exact distributeLookup_mem sA.2 sB.2 l 0 idx

/-- Every part is either floor(value / partsCount) or that plus one. -/
theorem getPartitionedIntegerPartAtIndex_eq_or (value partsCount : Int)
    (h0 : 0 ≤ value) (h1 : 1 ≤ partsCount) (idx : Int) :
    getPartitionedIntegerPartAtIndex value partsCount idx =
        value.fdiv partsCount ∨
      getPartitionedIntegerPartAtIndex value partsCount idx =
        value.fdiv partsCount + 1 := by
  unfold getPartitionedIntegerPartAtIndex divideIntegerIntoWholeParts
  by_cases hr0 : value.tmod partsCount > 0
  · have h := evenlyDistributeSets_mem
      (partsCount - value.tmod partsCount, value.fdiv partsCount)
      (value.tmod partsCount,
        if value.tmod partsCount > 0 then value.fdiv partsCount + 1 else 0) idx
    rcases h with h | h
    · exact Or.inl h
    · right
      rw [h]
      simp [hr0]
  · have hreq : value.tmod partsCount = 0 :=
      le_antisymm (not_lt.mp hr0) (Int.tmod_nonneg partsCount h0)
    left
    rw [hreq]
    unfold evenlyDistributeSets
    have hgt : (0 : Int) < partsCount := by omega
    simp [hgt]

/-! ### Claims about the partitioner -/

/-- Claim C1 (refuted; code_bug): the partition sum invariant fails on the
    code.  At value = 14, partsCount = 30, the thirty parts returned by
    getPartitionedIntegerPartAtIndex sum to 15, not 14: the frequency-based
    distribution marks 15 of the 30 indices with the raised value 1. -/
theorem c1_partitionSum_fails :
    partitionSum 14 30 ≠ 14 ∧ partitionSum 14 30 = 15 := by decide

/-- Claim C3: for every integer value ≥ 0, partsCount ≥ 1 and indices i, j
    in [0, partsCount), the parts at i and j differ by at most 1 (every part
    is floor(value/partsCount) or floor(value/partsCount) + 1). -/
theorem c3_partition_spread (value partsCount i j : Int)
    (h0 : 0 ≤ value) (h1 : 1 ≤ partsCount)
    (hi0 : 0 ≤ i) (hi : i < partsCount) (hj0 : 0 ≤ j) (hj : j < partsCount) :
    (getPartitionedIntegerPartAtIndex value partsCount i -
      getPartitionedIntegerPartAtIndex value partsCount j).natAbs ≤ 1 := by
  rcases getPartitionedIntegerPartAtIndex_eq_or value partsCount h0 h1 i
      with ha | ha <;>
    rcases getPartitionedIntegerPartAtIndex_eq_or value partsCount h0 h1 j
        with hb | hb <;>
      rw [ha, hb] <;> omega

/-- Witness for C3 at value 7, partsCount 3, indices 0 and 1. -/
theorem c3_partition_spread_witness :
    (getPartitionedIntegerPartAtIndex 7 3 0 -
      getPartitionedIntegerPartAtIndex 7 3 1).natAbs ≤ 1 :=
  c3_partition_spread 7 3 0 1 (by decide) (by decide) (by decide) (by decide)
    (by decide) (by decide)

/-- Claim C10: for all integers slotsAvailable ≥ slotsFilledGoal ≥ 1 the
    recursion of getFrequencyPerDivision terminates — recursion depth
    slotsFilledGoal suffices, because on every recursive call the goal
    argument strictly decreases while remaining ≥ 1 — and it returns a
    non-empty frequency list (and, never dividing by zero, the embedded
    ceiling divisions are never applied to a zero divisor). -/
theorem c10_getFrequencyPerDivision_terminates
    (slotsAvailable slotsFilledGoal : Int)
    (h1 : 1 ≤ slotsFilledGoal) (h2 : slotsFilledGoal ≤ slotsAvailable) :
    ∃ l, getFrequencyPerDivision slotsFilledGoal.toNat slotsAvailable
        slotsFilledGoal [] = some l ∧ l ≠ [] := by
  obtain ⟨l, hl, hlen⟩ := getFrequencyPerDivision_total slotsFilledGoal.toNat
    slotsFilledGoal slotsAvailable rfl h1 (Or.inl (by omega)) []
    slotsFilledGoal.toNat le_rfl
  refine ⟨l, hl, ?_⟩
  intro h
  subst h
  simp at hlen

/-- Witness for C10 at slotsAvailable 30, slotsFilledGoal 14. -/
theorem c10_getFrequencyPerDivision_terminates_witness :
    ∃ l, getFrequencyPerDivision ((14 : Int)).toNat 30 14 [] = some l ∧
      l ≠ [] :=
  c10_getFrequencyPerDivision_terminates 30 14 (by decide) (by decide)

/-! ### The dispatch loop on a stable in-flight set -/

theorem channelProcess_fst_id (c : Channel) (m : JNum) (thr : Bool) :
    ((channelProcess c m thr).1).id = c.id := by
  unfold channelProcess
  cases m <;> simp only [] <;> split <;> rfl

theorem list_set_self {α : Type} (l : List α) (i : Nat) (h : i < l.length) :
    l.set i l[i] = l := by
  apply List.ext_getElem (by simp)
  intro n h1 h2
  rw [List.getElem_set]
  split
  · subst ‹i = n›
    rfl
  · rfl

/-- Processing the loop from index i with no channel signalling stop
    dispatches, in position order, exactly the amount computed by
    dispatchAmount to the channel at each position. -/
theorem processLoop_stable (period : Nat) (mult : Rat) :
    ∀ (fuel : Nat) (s : GroupState) (i : Nat) (acc : List (Nat × JNum)),
      s.inFlightRequests.length ≤ i + fuel →
      (∀ j (hj : j < s.inFlightRequests.length), i ≤ j →
        (channelProcess s.inFlightRequests[j]
          (dispatchAmount s.config s.inFlightRequests.length period
            s.tickIndex j mult)
          s.config.isThrottled).2.2 = false) →
      (processLoop period mult fuel s i acc).2 =
        acc ++ (List.range' i (s.inFlightRequests.length - i)).map
          (fun j => ((s.inFlightRequests.map Channel.id).getD j 0,
            dispatchAmount s.config s.inFlightRequests.length period
              s.tickIndex j mult)) := by
  intro fuel
  induction fuel with
  | zero =>
    intro s i acc hlen _
    have hz : s.inFlightRequests.length - i = 0 := by omega
    simp [processLoop, hz]
  | succ fuel ih =>
    intro s i acc hlen hstable
    by_cases h : i < s.inFlightRequests.length
    · have hstop := hstable i h le_rfl
      have hstep : processOneStep period mult s i h =
          ({ s with inFlightRequests := s.inFlightRequests.set i (channelProcess s.inFlightRequests[i] (dispatchAmount s.config s.inFlightRequests.length period s.tickIndex i mult) s.config.isThrottled).1 }, (s.inFlightRequests[i].id, dispatchAmount s.config s.inFlightRequests.length period s.tickIndex i mult)) := by
        unfold processOneStep
        simp only [hstop, Bool.false_eq_true, if_false]
      rw [show processLoop period mult (fuel + 1) s i acc =
          (if h : i < s.inFlightRequests.length then
            let step := processOneStep period mult s i h
            if step.1.inFlightRequests.length < s.inFlightRequests.length then
              processLoop period mult fuel step.1 i (acc ++ [step.2])
            else
              processLoop period mult fuel step.1 (i + 1) (acc ++ [step.2])
          else (s, acc)) from rfl]
      rw [dif_pos h]
      simp only [hstep, List.length_set, lt_self_iff_false, if_false]
      have hlt : i < (s.inFlightRequests.map Channel.id).length := by simpa using h
      have hids : ((s.inFlightRequests.set i (channelProcess s.inFlightRequests[i] (dispatchAmount s.config s.inFlightRequests.length period s.tickIndex i mult) s.config.isThrottled).1).map Channel.id) = s.inFlightRequests.map Channel.id := by
        rw [List.map_set]
        have hval : (channelProcess s.inFlightRequests[i] (dispatchAmount s.config s.inFlightRequests.length period s.tickIndex i mult) s.config.isThrottled).1.id = (s.inFlightRequests.map Channel.id)[i] := by
          rw [channelProcess_fst_id]
          exact (List.getElem_map Channel.id).symm
        rw [hval, list_set_self _ _ hlt]
      rw [ih _ (i + 1) _ (by simpa using by omega)]
      · simp only [List.length_set, hids]
        have hrange : List.range' i (s.inFlightRequests.length - i) =
            i :: List.range' (i + 1) (s.inFlightRequests.length - (i + 1)) := by
          have hn : s.inFlightRequests.length - i =
              (s.inFlightRequests.length - (i + 1)) + 1 := by omega
          rw [hn, List.range'_succ]
        rw [hrange]
        simp only [List.map_cons, List.append_assoc, List.singleton_append]
        congr 2
        rw [List.getD_eq_getElem?_getD, List.getElem?_map,
          List.getElem?_eq_getElem h]
        rfl
      · intro j hj hij
        have hj' : j < s.inFlightRequests.length := by simpa using hj
        have hne : i ≠ j := by omega
        simp only [List.length_set] at hj ⊢
        rw [List.getElem_set_ne hne]
        exact hstable j hj' (by omega)
    · have hz : s.inFlightRequests.length - i = 0 := by omega
      simp [processLoop, dif_neg h, hz]

/-! ### Claim C4: the per-channel dispatch formula -/

theorem dispatchAmount_eq_of_throttled (cfg : Config) (b : Int)
    (hb : cfg.bytesPerSecond = some b) (n period tickIndex i : Nat)
    (mult : Rat) :
    dispatchAmount cfg n period tickIndex i mult =
      .q ((getPartitionedIntegerPartAtIndex
        (getPartitionedIntegerPartAtIndex b (n : Int) (((i + period) % n : Nat) : Int))
        cfg.ticksPerSecond (tickIndex : Int) : Int) * mult) := by
  unfold dispatchAmount
  rw [hb]

theorem processInFlightRequests_snd_eq (s : GroupState) (now : Rat)
    (hdue : (s.config.isThrottled && s.hasTicked &&
      decide ((if s.hasTicked then now - s.lastTickTime else 0) <
        s.config.tickDurationMs)) = false) :
    (processInFlightRequests s now).2 =
      (processLoop (s.secondIndex % s.inFlightRequests.length)
        (max 1 ((if s.hasTicked then now - s.lastTickTime else 0) /
          s.config.tickDurationMs))
        (2 * s.inFlightRequests.length + 1) s 0 []).2 := by
  unfold processInFlightRequests
  simp only [hdue, Bool.false_eq_true, if_false]
  repeat' split
  all_goals rfl

/-- Claim C4: on every due tick while throttled, the scheduler dispatches to
    the in-flight channel at position i exactly
    partitionPart(partitionPart(bytesPerSecond, inFlightCount,
    (i + secondIndex mod inFlightCount) mod inFlightCount), ticksPerSecond,
    tickIndex) multiplied by delayMultiplier =
    max(1, elapsedTimeSinceLastTick / tickDurationMs), for every position i
    (provided no channel finishes mid-loop, so the in-flight set is stable
    over the tick). -/
theorem c4_dispatch_formula (s : GroupState) (now : Rat) (b : Int)
    (hb : s.config.bytesPerSecond = some b)
    (hdue : (s.config.isThrottled && s.hasTicked &&
      decide ((if s.hasTicked then now - s.lastTickTime else 0) <
        s.config.tickDurationMs)) = false)
    (hstable : ∀ j (hj : j < s.inFlightRequests.length),
      (channelProcess s.inFlightRequests[j]
        (.q ((getPartitionedIntegerPartAtIndex
          (getPartitionedIntegerPartAtIndex b (s.inFlightRequests.length : Int)
            (((j + s.secondIndex % s.inFlightRequests.length) %
              s.inFlightRequests.length : Nat) : Int))
          s.config.ticksPerSecond (s.tickIndex : Int) : Int) *
          max 1 ((if s.hasTicked then now - s.lastTickTime else 0) /
            s.config.tickDurationMs)))
        s.config.isThrottled).2.2 = false) :
    (processInFlightRequests s now).2 =
      (List.range s.inFlightRequests.length).map (fun i =>
        ((s.inFlightRequests.map Channel.id).getD i 0,
          JNum.q ((getPartitionedIntegerPartAtIndex
            (getPartitionedIntegerPartAtIndex b (s.inFlightRequests.length : Int)
              (((i + s.secondIndex % s.inFlightRequests.length) %
                s.inFlightRequests.length : Nat) : Int))
            s.config.ticksPerSecond (s.tickIndex : Int) : Int) *
            max 1 ((if s.hasTicked then now - s.lastTickTime else 0) /
              s.config.tickDurationMs)))) := by
  rw [processInFlightRequests_snd_eq s now hdue]
  rw [processLoop_stable (s.secondIndex % s.inFlightRequests.length)
    (max 1 ((if s.hasTicked then now - s.lastTickTime else 0) /
      s.config.tickDurationMs))
    (2 * s.inFlightRequests.length + 1) s 0 [] (by omega) ?_]
  · rw [List.range_eq_range']
    simp only [Nat.sub_zero, List.nil_append]
    apply List.map_congr_left
    intro j hj
    rw [dispatchAmount_eq_of_throttled s.config b hb]
  · intro j hj _
    rw [dispatchAmount_eq_of_throttled s.config b hb]
    exact hstable j hj

theorem getPartitionedIntegerPartAtIndex_one (x : Int) :
    getPartitionedIntegerPartAtIndex x 1 0 = x := by
  unfold getPartitionedIntegerPartAtIndex divideIntegerIntoWholeParts
  rw [Int.tmod_one, Int.fdiv_one]
  unfold evenlyDistributeSets
  norm_num

theorem channelProcess_q_keeps (c : Channel) (v : Rat) (thr : Bool)
    (h1 : c.pendingBytesReadIndex + v < c.pendingBytesCount)
    (h2 : c.pendingBytesReadIndex < c.pendingBytesCount) :
    (channelProcess c (.q v) thr).2.2 = false := by
  unfold channelProcess
  simp only []
  split
  · have hmin : min (c.pendingBytesReadIndex + v) c.pendingBytesCount <
        c.pendingBytesCount := min_lt_iff.mpr (Or.inl h1)
    simp [hmin]
  · simp [h2]

theorem c4State_hasTicked : c4State.hasTicked = false := by
  unfold c4State GroupState.hasTicked
  norm_num

/-- Witness for C4: the concrete state c4State at now = 0 dispatches the
    formula amounts to both channels. -/
theorem c4_dispatch_formula_witness :
    (processInFlightRequests c4State 0).2 =
      (List.range c4State.inFlightRequests.length).map (fun i =>
        ((c4State.inFlightRequests.map Channel.id).getD i 0,
          JNum.q ((getPartitionedIntegerPartAtIndex
            (getPartitionedIntegerPartAtIndex 10 (c4State.inFlightRequests.length : Int)
              (((i + c4State.secondIndex % c4State.inFlightRequests.length) %
                c4State.inFlightRequests.length : Nat) : Int))
            c4State.config.ticksPerSecond (c4State.tickIndex : Int) : Int) *
            max 1 ((if c4State.hasTicked then 0 - c4State.lastTickTime else 0) /
              c4State.config.tickDurationMs)))) := by
  apply c4_dispatch_formula c4State 0 10 rfl
  · rw [c4State_hasTicked]
    simp
  · intro j hj
    have hmult : max 1 ((if c4State.hasTicked then (0 : Rat) - c4State.lastTickTime else 0) / c4State.config.tickDurationMs) = 1 := by
      rw [c4State_hasTicked]
      norm_num
    rw [hmult]
    have hj2 : j < 2 := by simpa [c4State] using hj
    interval_cases j
    · have hv : getPartitionedIntegerPartAtIndex (getPartitionedIntegerPartAtIndex 10 (c4State.inFlightRequests.length : Int) (((0 + c4State.secondIndex % c4State.inFlightRequests.length) % c4State.inFlightRequests.length : Nat) : Int)) c4State.config.ticksPerSecond (c4State.tickIndex : Int) = 1 := by decide
      rw [hv]
      apply channelProcess_q_keeps <;> norm_num [c4State]
    · have hv : getPartitionedIntegerPartAtIndex (getPartitionedIntegerPartAtIndex 10 (c4State.inFlightRequests.length : Int) (((1 + c4State.secondIndex % c4State.inFlightRequests.length) % c4State.inFlightRequests.length : Nat) : Int)) c4State.config.ticksPerSecond (c4State.tickIndex : Int) = 1 := by decide
      rw [hv]
      apply channelProcess_q_keeps <;> norm_num [c4State]

/-! ### Claim C2: the one-second window total -/

theorem dispatchTotal_map {α : Type} (l : List α) (f : α → Nat) (g : α → Rat) :
    dispatchTotal (l.map (fun a => (f a, JNum.q (g a)))) = (l.map g).sum := by
  unfold dispatchTotal
  rw [List.map_map]
  rfl

theorem list_sum_intCast {α : Type} (l : List α) (g : α → Int) :
    (l.map (fun a => ((g a : Int) : Rat))).sum = (((l.map g).sum : Int) : Rat) := by
  induction l with
  | nil => simp
  | cons a t ih => simp [ih]

theorem exampleGroupC2_inFlight :
    exampleGroupC2.inFlightRequests = (List.range 30).map
      (fun k => { id := k, pendingBytesCount := 1000000, pendingBytesReadIndex := 0 }) := by
  decide

theorem exampleGroupC2_hasTicked : exampleGroupC2.hasTicked = false := by decide

theorem exampleGroupC2_config : exampleGroupC2.config =
    { bytesPerSecond := some 14, ticksPerSecond := 1 } := by decide

theorem exampleGroupC2_counters :
    exampleGroupC2.tickIndex = 0 ∧ exampleGroupC2.secondIndex = 0 := by decide

theorem part_14_30_le_one (idx : Int) :
    getPartitionedIntegerPartAtIndex 14 30 idx ≤ 1 := by
  rcases getPartitionedIntegerPartAtIndex_eq_or 14 30 (by decide) (by decide) idx
      with h | h <;> rw [h] <;> decide

/-- Claim C2 (refuted; code_bug): with bytesPerSecond = 14, ticksPerSecond = 1
    and a stable, non-empty in-flight set of thirty channels, the single due
    tick making up a full one-second window (with delayMultiplier = 1: it is
    the session's first tick, so elapsedTime = 0) dispatches a total of 15
    bytes across all channels, not bytesPerSecond = 14. -/
theorem c2_window_total_fails :
    dispatchTotal (processInFlightRequests exampleGroupC2 0).2 = 15 ∧
      dispatchTotal (processInFlightRequests exampleGroupC2 0).2 ≠ 14 := by
  have hb : exampleGroupC2.config.bytesPerSecond = some 14 := by
    rw [exampleGroupC2_config]
  have hT : exampleGroupC2.config.ticksPerSecond = 1 := by
    rw [exampleGroupC2_config]
  have hthr : exampleGroupC2.config.isThrottled = true := by
    unfold Config.isThrottled
    rw [hb]
    rfl
  have hlen : exampleGroupC2.inFlightRequests.length = 30 := by
    rw [exampleGroupC2_inFlight]
    simp
  have hsec : exampleGroupC2.secondIndex = 0 := exampleGroupC2_counters.2
  have htk : exampleGroupC2.tickIndex = 0 := exampleGroupC2_counters.1
  have hmult : max 1 ((if exampleGroupC2.hasTicked then (0 : Rat) - exampleGroupC2.lastTickTime else 0) / exampleGroupC2.config.tickDurationMs) = 1 := by
    rw [exampleGroupC2_hasTicked]
    norm_num
  have hchan : ∀ j, j < exampleGroupC2.inFlightRequests.length →
      ∀ (hj : j < exampleGroupC2.inFlightRequests.length),
      exampleGroupC2.inFlightRequests[j] =
        { id := j, pendingBytesCount := 1000000, pendingBytesReadIndex := 0 } := by
    intro j _ hj
    have hj30 : j < 30 := by
      rw [exampleGroupC2_inFlight] at hj
      simpa using hj
    rw [List.getElem_of_eq exampleGroupC2_inFlight, List.getElem_map]
    congr 1
    apply List.getElem_range
  have hdue : (exampleGroupC2.config.isThrottled && exampleGroupC2.hasTicked &&
      decide ((if exampleGroupC2.hasTicked then (0 : Rat) - exampleGroupC2.lastTickTime else 0) <
        exampleGroupC2.config.tickDurationMs)) = false := by
    rw [exampleGroupC2_hasTicked]
    simp
  have hamount : ∀ j, dispatchAmount exampleGroupC2.config
      exampleGroupC2.inFlightRequests.length
      (exampleGroupC2.secondIndex % exampleGroupC2.inFlightRequests.length)
      exampleGroupC2.tickIndex j
      (max 1 ((if exampleGroupC2.hasTicked then (0 : Rat) - exampleGroupC2.lastTickTime else 0) / exampleGroupC2.config.tickDurationMs)) =
      JNum.q ((getPartitionedIntegerPartAtIndex 14 30
        (((j + exampleGroupC2.secondIndex % exampleGroupC2.inFlightRequests.length) %
          exampleGroupC2.inFlightRequests.length : Nat) : Int) : Int) : Rat) := by
    intro j
    rw [dispatchAmount_eq_of_throttled exampleGroupC2.config 14 hb, hT, htk, hmult,
      mul_one]
    norm_num [getPartitionedIntegerPartAtIndex_one, hlen]
  have hdisp := processInFlightRequests_snd_eq exampleGroupC2 0 hdue
  rw [processLoop_stable _ _ _ _ _ _ (by omega) ?stable] at hdisp
  case stable =>
    intro j hj _
    simp only [hamount j, hchan j hj hj, hthr]
    apply channelProcess_q_keeps
    · have hle := part_14_30_le_one
        (((j + exampleGroupC2.secondIndex % exampleGroupC2.inFlightRequests.length) %
          exampleGroupC2.inFlightRequests.length : Nat) : Int)
      have hleq : ((getPartitionedIntegerPartAtIndex 14 30
          (((j + exampleGroupC2.secondIndex % exampleGroupC2.inFlightRequests.length) %
            exampleGroupC2.inFlightRequests.length : Nat) : Int) : Int) : Rat) ≤ 1 := by
        exact_mod_cast hle
      show (0 : Rat) + _ < 1000000
      linarith
    · show (0 : Rat) < 1000000
      norm_num
  rw [List.nil_append] at hdisp
  have hmap : (List.range' 0 (exampleGroupC2.inFlightRequests.length - 0)).map
      (fun j => ((exampleGroupC2.inFlightRequests.map Channel.id).getD j 0,
        dispatchAmount exampleGroupC2.config exampleGroupC2.inFlightRequests.length
          (exampleGroupC2.secondIndex % exampleGroupC2.inFlightRequests.length)
          exampleGroupC2.tickIndex j
          (max 1 ((if exampleGroupC2.hasTicked then (0 : Rat) - exampleGroupC2.lastTickTime else 0) / exampleGroupC2.config.tickDurationMs)))) =
      (List.range' 0 (exampleGroupC2.inFlightRequests.length - 0)).map
        (fun j => ((exampleGroupC2.inFlightRequests.map Channel.id).getD j 0,
          JNum.q ((getPartitionedIntegerPartAtIndex 14 30 (j : Int) : Int) : Rat))) := by
    apply List.map_congr_left
    intro j hj
    have hj30 : j < 30 := by
      rcases List.mem_range'.mp hj with ⟨i, hi, rfl⟩
      omega
    rw [hamount j]
    have hidx : (j + exampleGroupC2.secondIndex % exampleGroupC2.inFlightRequests.length) % exampleGroupC2.inFlightRequests.length = j := by
      rw [hsec, hlen]
      simp [Nat.mod_eq_of_lt hj30]
    rw [hidx]
  rw [hmap] at hdisp
  simp only [hlen, Nat.sub_zero] at hdisp
  rw [hdisp, dispatchTotal_map, list_sum_intCast]
  have hsum : ((List.range' 0 30).map
      (fun (j : Nat) => getPartitionedIntegerPartAtIndex 14 30 (j : Int))).sum =
      partitionSum 14 30 := by
    rw [partitionSum, show ((30 : Int)).toNat = 30 from rfl, List.range_eq_range']
  rw [hsum, show partitionSum 14 30 = 15 from by decide]
  norm_num

/-! ### Claim C6: stop for an absent channel -/

/-- Claim C6 (refuted; code_bug): delivering a stop signal for a channel that
    is not in the in-flight set is NOT a no-op.  indexOf returns -1 and
    splice(-1, 1) removes the LAST element: with only channel 1 in flight, a
    stop signal for the absent channel 2 removes channel 1, empties the
    in-flight set and stops the clock. -/
theorem c6_double_stop_removes_last :
    (runEvents (initGroup {})
      [.start { id := 1, pendingBytesCount := 7, pendingBytesReadIndex := 0 }]).inFlightRequests.length = 1 ∧
    (runEvents (initGroup {})
      [.start { id := 1, pendingBytesCount := 7, pendingBytesReadIndex := 0 },
       .stop 2]).inFlightRequests = [] ∧
    (runEvents (initGroup {})
      [.start { id := 1, pendingBytesCount := 7, pendingBytesReadIndex := 0 },
       .stop 2]).clockIntervalId = none := by
  decide

/-! ### Claim C9: the channel process/transform contract -/

/-- Claim C9: a process call with maxBytesToProcess ≥ 0 (or the unbounded
    default Infinity) emits exactly min(maxBytesToProcess, pendingBytesCount -
    pendingBytesReadIndex) bytes, advances the read cursor by exactly that
    amount and leaves the buffered count unchanged; and after any sequence of
    transform and process calls the read cursor never exceeds the buffered
    byte count. -/
theorem c9_process_contract :
    (∀ (c : Channel) (thr : Bool) (x : Rat), 0 ≤ x →
      c.pendingBytesReadIndex ≤ c.pendingBytesCount →
      (channelProcess c (.q x) thr).2.1 =
        .q (min x (c.pendingBytesCount - c.pendingBytesReadIndex)) ∧
      (channelProcess c (.q x) thr).1.pendingBytesReadIndex =
        c.pendingBytesReadIndex +
          min x (c.pendingBytesCount - c.pendingBytesReadIndex) ∧
      (channelProcess c (.q x) thr).1.pendingBytesCount =
        c.pendingBytesCount) ∧
    (∀ (c : Channel) (thr : Bool),
      c.pendingBytesReadIndex ≤ c.pendingBytesCount →
      (channelProcess c .inf thr).2.1 =
        .q (c.pendingBytesCount - c.pendingBytesReadIndex) ∧
      (channelProcess c .inf thr).1.pendingBytesReadIndex =
        c.pendingBytesCount ∧
      (channelProcess c .inf thr).1.pendingBytesCount =
        c.pendingBytesCount) ∧
    (∀ (c : Channel) (thr : Bool) (calls : List ChannelCall),
      c.pendingBytesReadIndex ≤ c.pendingBytesCount →
      (runChannelCalls thr c calls).pendingBytesReadIndex ≤
        (runChannelCalls thr c calls).pendingBytesCount) := by
  have hq : ∀ (c : Channel) (thr : Bool) (x : Rat), 0 ≤ x →
      c.pendingBytesReadIndex ≤ c.pendingBytesCount →
      (channelProcess c (.q x) thr).2.1 =
        .q (min x (c.pendingBytesCount - c.pendingBytesReadIndex)) ∧
      (channelProcess c (.q x) thr).1.pendingBytesReadIndex =
        c.pendingBytesReadIndex +
          min x (c.pendingBytesCount - c.pendingBytesReadIndex) ∧
      (channelProcess c (.q x) thr).1.pendingBytesCount =
        c.pendingBytesCount := by
    intro c thr x hx hrc
    have hmin : min (c.pendingBytesReadIndex + x) c.pendingBytesCount -
        c.pendingBytesReadIndex =
        min x (c.pendingBytesCount - c.pendingBytesReadIndex) := by
      rcases le_total (c.pendingBytesReadIndex + x) c.pendingBytesCount with h | h
      · rw [min_eq_left h, min_eq_left (by linarith)]
        ring
      · rw [min_eq_right h, min_eq_right (by linarith)]
    unfold channelProcess
    simp only []
    split
    · refine ⟨by rw [hmin], ?_, rfl⟩
      simp only []
      rw [show min (c.pendingBytesReadIndex + x) c.pendingBytesCount =
        c.pendingBytesReadIndex + (min (c.pendingBytesReadIndex + x)
          c.pendingBytesCount - c.pendingBytesReadIndex) from by ring, hmin]
    · rename_i hnpos
      rw [not_lt] at hnpos
      have h0 : min (c.pendingBytesReadIndex + x) c.pendingBytesCount -
          c.pendingBytesReadIndex = 0 := by
        have hge : 0 ≤ min (c.pendingBytesReadIndex + x) c.pendingBytesCount -
            c.pendingBytesReadIndex := by
          have h1 : c.pendingBytesReadIndex ≤
              min (c.pendingBytesReadIndex + x) c.pendingBytesCount :=
            le_min (by linarith) hrc
          linarith
        linarith
      rw [hmin] at h0
      exact ⟨by rw [hmin], by rw [h0, add_zero], rfl⟩
  have hinf : ∀ (c : Channel) (thr : Bool),
      c.pendingBytesReadIndex ≤ c.pendingBytesCount →
      (channelProcess c .inf thr).2.1 =
        .q (c.pendingBytesCount - c.pendingBytesReadIndex) ∧
      (channelProcess c .inf thr).1.pendingBytesReadIndex =
        c.pendingBytesCount ∧
      (channelProcess c .inf thr).1.pendingBytesCount =
        c.pendingBytesCount := by
    intro c thr hrc
    unfold channelProcess
    simp only []
    split
    · exact ⟨trivial, rfl, rfl⟩
    · rename_i hnpos
      rw [not_lt] at hnpos
      have : c.pendingBytesReadIndex = c.pendingBytesCount := by linarith
      exact ⟨trivial, this, rfl⟩
  refine ⟨hq, hinf, ?_⟩
  intro c thr calls
  induction calls generalizing c with
  | nil => intro h; exact h
  | cons call rest ih =>
    intro hrc
    cases call with
    | transform n =>
      apply ih
      unfold channelTransform
      split
      · simp only []
        have : (0 : Rat) ≤ (n : Rat) := by positivity
        linarith
      · have hrc' : ({ c with pendingBytesCount := c.pendingBytesCount + (n : Rat) } : Channel).pendingBytesReadIndex ≤ ({ c with pendingBytesCount := c.pendingBytesCount + (n : Rat) } : Channel).pendingBytesCount := by
          simp only []
          have : (0 : Rat) ≤ (n : Rat) := by positivity
          linarith
        have h2 := hinf { c with pendingBytesCount := c.pendingBytesCount + (n : Rat) } thr hrc'
        rw [h2.2.1, h2.2.2]
    | process m =>
      apply ih
      cases m with
      | nan => exact hrc
      | inf =>
        unfold channelProcess
        simp only []
        split
        · exact le_rfl
        · exact hrc
      | q x =>
        unfold channelProcess
        simp only []
        split
        · exact min_le_right _ _
        · exact hrc

/-- Witness for C9 on a channel with 5 buffered bytes and cursor at 2. -/
theorem c9_process_contract_witness :
    (channelProcess { id := 0, pendingBytesCount := 5, pendingBytesReadIndex := 2 }
        (.q 2) true).1.pendingBytesReadIndex = (2 : Rat) + min 2 (5 - 2) ∧
    (channelProcess { id := 0, pendingBytesCount := 5, pendingBytesReadIndex := 2 }
        .inf true).1.pendingBytesReadIndex = (5 : Rat) ∧
    (runChannelCalls true { id := 0, pendingBytesCount := 5, pendingBytesReadIndex := 2 }
        [.transform 3, .process (.q 4)]).pendingBytesReadIndex ≤
      (runChannelCalls true { id := 0, pendingBytesCount := 5, pendingBytesReadIndex := 2 }
        [.transform 3, .process (.q 4)]).pendingBytesCount :=
  ⟨(c9_process_contract.1 { id := 0, pendingBytesCount := 5, pendingBytesReadIndex := 2 }
      true 2 (by norm_num) (by norm_num)).2.1,
   (c9_process_contract.2.1 { id := 0, pendingBytesCount := 5, pendingBytesReadIndex := 2 }
      true (by norm_num)).2.1,
   c9_process_contract.2.2 { id := 0, pendingBytesCount := 5, pendingBytesReadIndex := 2 }
      true [.transform 3, .process (.q 4)] (by norm_num)⟩

/-! ### Claim C7: configuration is never validated -/

theorem stopClock_inFlight (s : GroupState) :
    (stopClock s).inFlightRequests = s.inFlightRequests := rfl

theorem handleRequestStop_length_le (s : GroupState) (x : Nat) :
    (handleRequestStop s x).inFlightRequests.length ≤
      s.inFlightRequests.length := by
  unfold handleRequestStop jsSpliceRemoveOne
  simp only []
  split <;> split <;> exact (List.eraseIdx_sublist _ _).length_le

/-- A single-channel dispatch loop always logs exactly one process call for
    that channel, whether or not the channel finishes. -/
theorem processLoop_singleton (period : Nat) (mult : Rat) (fuel : Nat)
    (s : GroupState) (c : Channel) (hf : 2 ≤ fuel)
    (hone : s.inFlightRequests = [c]) :
    (processLoop period mult fuel s 0 []).2 =
      [(c.id, dispatchAmount s.config 1 period s.tickIndex 0 mult)] := by
  obtain ⟨f, rfl⟩ : ∃ f, fuel = f + 2 := ⟨fuel - 2, by omega⟩
  have hlen : s.inFlightRequests.length = 1 := by rw [hone]; rfl
  have h0 : 0 < s.inFlightRequests.length := by omega
  rw [show processLoop period mult (f + 2) s 0 [] =
      (if h : 0 < s.inFlightRequests.length then
        let step := processOneStep period mult s 0 h
        if step.1.inFlightRequests.length < s.inFlightRequests.length then
          processLoop period mult (f + 1) step.1 0 ([] ++ [step.2])
        else
          processLoop period mult (f + 1) step.1 (0 + 1) ([] ++ [step.2])
      else (s, [])) from rfl]
  rw [dif_pos h0]
  have hc : s.inFlightRequests[0] = c := by
    rw [List.getElem_of_eq hone]
    rfl
  have hsnd : (processOneStep period mult s 0 h0).2 =
      (c.id, dispatchAmount s.config 1 period s.tickIndex 0 mult) := by
    unfold processOneStep
    rw [hc, hlen]
  by_cases hshrink : (processOneStep period mult s 0 h0).1.inFlightRequests.length < s.inFlightRequests.length
  · rw [if_pos hshrink]
    have hz : (processOneStep period mult s 0 h0).1.inFlightRequests.length = 0 := by
      omega
    rw [show processLoop period mult (f + 1) (processOneStep period mult s 0 h0).1 0 ([] ++ [(processOneStep period mult s 0 h0).2]) = (if h : 0 < (processOneStep period mult s 0 h0).1.inFlightRequests.length then
        let step := processOneStep period mult (processOneStep period mult s 0 h0).1 0 h
        if step.1.inFlightRequests.length < (processOneStep period mult s 0 h0).1.inFlightRequests.length then
          processLoop period mult f step.1 0 ([] ++ [(processOneStep period mult s 0 h0).2] ++ [step.2])
        else
          processLoop period mult f step.1 (0 + 1) ([] ++ [(processOneStep period mult s 0 h0).2] ++ [step.2])
      else ((processOneStep period mult s 0 h0).1, [] ++ [(processOneStep period mult s 0 h0).2])) from rfl]
    rw [dif_neg (by omega)]
    rw [hsnd]
    rfl
  · rw [if_neg hshrink]
    have hle : (processOneStep period mult s 0 h0).1.inFlightRequests.length ≤
        s.inFlightRequests.length := by
      unfold processOneStep
      simp only []
      split
      · exact le_trans (handleRequestStop_length_le _ _) (by simp)
      · simp
    have hsame : (processOneStep period mult s 0 h0).1.inFlightRequests.length = 1 := by
      omega
    rw [show processLoop period mult (f + 1) (processOneStep period mult s 0 h0).1 (0 + 1) ([] ++ [(processOneStep period mult s 0 h0).2]) = (if h : 0 + 1 < (processOneStep period mult s 0 h0).1.inFlightRequests.length then
        let step := processOneStep period mult (processOneStep period mult s 0 h0).1 (0 + 1) h
        if step.1.inFlightRequests.length < (processOneStep period mult s 0 h0).1.inFlightRequests.length then
          processLoop period mult f step.1 (0 + 1) ([] ++ [(processOneStep period mult s 0 h0).2] ++ [step.2])
        else
          processLoop period mult f step.1 (0 + 1 + 1) ([] ++ [(processOneStep period mult s 0 h0).2] ++ [step.2])
      else ((processOneStep period mult s 0 h0).1, [] ++ [(processOneStep period mult s 0 h0).2])) from rfl]
    rw [dif_neg (by omega)]
    rw [hsnd]
    rfl

/-- Claim C7 amended: construction (and configure, which runs the same
    Object.assign) performs no validation whatsoever: ticksPerSecond ≤ 0 and
    bytesPerSecond < 0 are accepted, stored verbatim in the live config, and
    read by the scheduler on the very next tick, which computes the
    per-channel allowance from them. -/
theorem c7_amended_no_validation (b ts : Int) (hb : b < 0) (hts : ts ≤ 0) :
    (initGroup { bytesPerSecond := some (some b), ticksPerSecond := some ts }).config =
      { bytesPerSecond := some b, ticksPerSecond := ts } ∧
    (processInFlightRequests (runEvents
        (initGroup { bytesPerSecond := some (some b), ticksPerSecond := some ts })
        [.start { id := 1, pendingBytesCount := 7, pendingBytesReadIndex := 0 }]) 0).2 =
      [(1, JNum.q ((getPartitionedIntegerPartAtIndex
        (getPartitionedIntegerPartAtIndex b 1 0) ts 0 : Int) : Rat))] := by
  refine ⟨rfl, ?_⟩
  have hht : (runEvents
      (initGroup { bytesPerSecond := some (some b), ticksPerSecond := some ts })
      [.start { id := 1, pendingBytesCount := 7, pendingBytesReadIndex := 0 }]).hasTicked = false := by
    rfl
  have hdue : ((runEvents
      (initGroup { bytesPerSecond := some (some b), ticksPerSecond := some ts })
      [.start { id := 1, pendingBytesCount := 7, pendingBytesReadIndex := 0 }]).config.isThrottled &&
      (runEvents
      (initGroup { bytesPerSecond := some (some b), ticksPerSecond := some ts })
      [.start { id := 1, pendingBytesCount := 7, pendingBytesReadIndex := 0 }]).hasTicked &&
      decide ((if (runEvents
      (initGroup { bytesPerSecond := some (some b), ticksPerSecond := some ts })
      [.start { id := 1, pendingBytesCount := 7, pendingBytesReadIndex := 0 }]).hasTicked then (0 : Rat) - (runEvents
      (initGroup { bytesPerSecond := some (some b), ticksPerSecond := some ts })
      [.start { id := 1, pendingBytesCount := 7, pendingBytesReadIndex := 0 }]).lastTickTime else 0) <
        (runEvents
      (initGroup { bytesPerSecond := some (some b), ticksPerSecond := some ts })
      [.start { id := 1, pendingBytesCount := 7, pendingBytesReadIndex := 0 }]).config.tickDurationMs)) = false := by
    rw [hht]
    simp
  rw [processInFlightRequests_snd_eq _ 0 hdue]
  rw [processLoop_singleton _ _ _ _
    { id := 1, pendingBytesCount := 7, pendingBytesReadIndex := 0 }
    (by rw [show (runEvents (initGroup { bytesPerSecond := some (some b), ticksPerSecond := some ts }) [GroupEvent.start { id := 1, pendingBytesCount := 7, pendingBytesReadIndex := 0 }]).inFlightRequests.length = 1 from rfl]; omega) rfl]
  rw [dispatchAmount_eq_of_throttled _ b rfl]
  rw [hht,
    show (runEvents (initGroup { bytesPerSecond := some (some b), ticksPerSecond := some ts }) [GroupEvent.start { id := 1, pendingBytesCount := 7, pendingBytesReadIndex := 0 }]).config.ticksPerSecond = ts from rfl,
    show (runEvents (initGroup { bytesPerSecond := some (some b), ticksPerSecond := some ts }) [GroupEvent.start { id := 1, pendingBytesCount := 7, pendingBytesReadIndex := 0 }]).tickIndex = 0 from rfl]
  norm_num

/-- Claim C7 counterexample: constructing a group with bytesPerSecond = -5
    and ticksPerSecond = -10 is not rejected — the invalid values land in the
    live config unchanged — and the group remains usable: the next due tick
    runs the scheduler, which computes the per-channel allowance (here 0
    bytes) from those stored values.  No error is signalled at configuration
    time. -/
theorem c7_invalid_config_counterexample :
    (initGroup { bytesPerSecond := some (some (-5)), ticksPerSecond := some (-10) }).config =
      { bytesPerSecond := some (-5), ticksPerSecond := -10 } ∧
    (processInFlightRequests (runEvents
        (initGroup { bytesPerSecond := some (some (-5)), ticksPerSecond := some (-10) })
        [.start { id := 1, pendingBytesCount := 7, pendingBytesReadIndex := 0 }]) 0).2 =
      [(1, JNum.q 0)] := by
  refine ⟨rfl, ?_⟩
  have hht : (runEvents
      (initGroup { bytesPerSecond := some (some (-5)), ticksPerSecond := some (-10) })
      [.start { id := 1, pendingBytesCount := 7, pendingBytesReadIndex := 0 }]).hasTicked = false := by
    rfl
  have hdue : ((runEvents
      (initGroup { bytesPerSecond := some (some (-5)), ticksPerSecond := some (-10) })
      [.start { id := 1, pendingBytesCount := 7, pendingBytesReadIndex := 0 }]).config.isThrottled &&
      (runEvents
      (initGroup { bytesPerSecond := some (some (-5)), ticksPerSecond := some (-10) })
      [.start { id := 1, pendingBytesCount := 7, pendingBytesReadIndex := 0 }]).hasTicked &&
      decide ((if (runEvents
      (initGroup { bytesPerSecond := some (some (-5)), ticksPerSecond := some (-10) })
      [.start { id := 1, pendingBytesCount := 7, pendingBytesReadIndex := 0 }]).hasTicked then (0 : Rat) - (runEvents
      (initGroup { bytesPerSecond := some (some (-5)), ticksPerSecond := some (-10) })
      [.start { id := 1, pendingBytesCount := 7, pendingBytesReadIndex := 0 }]).lastTickTime else 0) <
        (runEvents
      (initGroup { bytesPerSecond := some (some (-5)), ticksPerSecond := some (-10) })
      [.start { id := 1, pendingBytesCount := 7, pendingBytesReadIndex := 0 }]).config.tickDurationMs)) = false := by
    rw [hht]
    simp
  rw [processInFlightRequests_snd_eq _ 0 hdue]
  rw [processLoop_singleton _ _ _ _
    { id := 1, pendingBytesCount := 7, pendingBytesReadIndex := 0 }
    (by rw [show (runEvents (initGroup { bytesPerSecond := some (some (-5)), ticksPerSecond := some (-10) }) [GroupEvent.start { id := 1, pendingBytesCount := 7, pendingBytesReadIndex := 0 }]).inFlightRequests.length = 1 from rfl]; omega) rfl]
  rw [dispatchAmount_eq_of_throttled _ (-5) rfl]
  rw [hht,
    show (runEvents (initGroup { bytesPerSecond := some (some (-5)), ticksPerSecond := some (-10) }) [GroupEvent.start { id := 1, pendingBytesCount := 7, pendingBytesReadIndex := 0 }]).config.ticksPerSecond = -10 from rfl,
    show (runEvents (initGroup { bytesPerSecond := some (some (-5)), ticksPerSecond := some (-10) }) [GroupEvent.start { id := 1, pendingBytesCount := 7, pendingBytesReadIndex := 0 }]).tickIndex = 0 from rfl]
  norm_num [show getPartitionedIntegerPartAtIndex (getPartitionedIntegerPartAtIndex (-5) 1 0) (-10) 0 = 0 from by decide]

/-- Witness for the amended C7 at bytesPerSecond = -5, ticksPerSecond = -10. -/
theorem c7_amended_no_validation_witness :
    (initGroup { bytesPerSecond := some (some (-5)), ticksPerSecond := some (-10) }).config =
      { bytesPerSecond := some (-5), ticksPerSecond := -10 } ∧
    (processInFlightRequests (runEvents
        (initGroup { bytesPerSecond := some (some (-5)), ticksPerSecond := some (-10) })
        [.start { id := 1, pendingBytesCount := 7, pendingBytesReadIndex := 0 }]) 0).2 =
      [(1, JNum.q ((getPartitionedIntegerPartAtIndex
        (getPartitionedIntegerPartAtIndex (-5) 1 0) (-10) 0 : Int) : Rat))] :=
  c7_amended_no_validation (-5) (-10) (by decide) (by decide)

/-! ### Claim C5: the clock runs iff channels are in flight -/

theorem set_ne_nil_iff {α : Type} (l : List α) (i : Nat) (a : α) :
    l.set i a ≠ [] ↔ l ≠ [] := by
  constructor
  · intro h hl
    subst hl
    exact h rfl
  · intro h hl
    apply h
    have := congrArg List.length hl
    rw [List.length_set] at this
    exact List.length_eq_zero.mp this

theorem ClockInv_initGroup (o : IConfig) : ClockInv (initGroup o) := by
  exact ⟨by simp [initGroup], rfl, fun _ => ⟨rfl, rfl⟩⟩

theorem ClockInv_handleRequestStart (s : GroupState) (c : Channel)
    (h : ClockInv s) : ClockInv (handleRequestStart s c) := by
  obtain ⟨h1, h2, h3⟩ := h
  unfold handleRequestStart
  simp only []
  split
  · rename_i hsome
    exact ⟨by simp [hsome], h2, by simp [Option.isSome_iff_ne_none] at hsome; simp [hsome]⟩
  · rename_i hnone
    have hb : s.clockIntervalId.isSome = false := by
      simpa using hnone
    refine ⟨by simp, ?_, by simp⟩
    rw [h2, hb]
    rfl

theorem ClockInv_stopClock (s : GroupState)
    (hempty : s.inFlightRequests = [])
    (h2 : s.liveTimers = if s.clockIntervalId.isSome then 1 else 0) :
    ClockInv (stopClock s) := by
  unfold stopClock
  refine ⟨by simp [hempty], ?_, fun _ => ⟨rfl, rfl⟩⟩
  rcases hs : s.clockIntervalId.isSome with _ | _ <;> simp [hs, h2]

theorem ClockInv_handleRequestStop (s : GroupState) (x : Nat)
    (h : ClockInv s) : ClockInv (handleRequestStop s x) := by
  obtain ⟨h1, h2, h3⟩ := h
  unfold handleRequestStop
  simp only []
  split
  · rename_i hzero
    exact ClockInv_stopClock _ (List.length_eq_zero.mp hzero) h2
  · rename_i hnz
    refine ⟨?_, h2, h3⟩
    constructor
    · intro _ heq
      apply hnz
      have h4 : jsSpliceRemoveOne s.inFlightRequests (jsIndexOf s.inFlightRequests x) = [] := heq
      rw [h4]
      rfl
    · intro _
      apply h1.mpr
      intro hemp
      apply hnz
      show (jsSpliceRemoveOne s.inFlightRequests (jsIndexOf s.inFlightRequests x)).length = 0
      rw [hemp]
      unfold jsSpliceRemoveOne
      simp

theorem ClockInv_processOneStep (period : Nat) (mult : Rat) (s : GroupState)
    (i : Nat) (hlt : i < s.inFlightRequests.length) (h : ClockInv s) :
    ClockInv (processOneStep period mult s i hlt).1 := by
  obtain ⟨h1, h2, h3⟩ := h
  have hset : ClockInv { s with inFlightRequests := s.inFlightRequests.set i (channelProcess s.inFlightRequests[i] (dispatchAmount s.config s.inFlightRequests.length period s.tickIndex i mult) s.config.isThrottled).1 } := by
    refine ⟨?_, h2, h3⟩
    rw [set_ne_nil_iff]
    exact h1
  unfold processOneStep
  simp only []
  split
  · exact ClockInv_handleRequestStop _ _ hset
  · exact hset

theorem ClockInv_processLoop (period : Nat) (mult : Rat) :
    ∀ (fuel : Nat) (s : GroupState) (i : Nat) (acc : List (Nat × JNum)),
      ClockInv s → ClockInv (processLoop period mult fuel s i acc).1 := by
  intro fuel
  induction fuel with
  | zero => intro s i acc h; exact h
  | succ fuel ih =>
    intro s i acc h
    rw [show processLoop period mult (fuel + 1) s i acc =
        (if hlt : i < s.inFlightRequests.length then
          let step := processOneStep period mult s i hlt
          if step.1.inFlightRequests.length < s.inFlightRequests.length then
            processLoop period mult fuel step.1 i (acc ++ [step.2])
          else
            processLoop period mult fuel step.1 (i + 1) (acc ++ [step.2])
        else (s, acc)) from rfl]
    split
    · rename_i hlt
      simp only []
      split
      · exact ih _ _ _ (ClockInv_processOneStep period mult s i hlt h)
      · exact ih _ _ _ (ClockInv_processOneStep period mult s i hlt h)
    · exact h

theorem ClockInv_tick (s : GroupState) (now : Rat) (h : ClockInv s) :
    ClockInv (processInFlightRequests s now).1 := by
  have hloop : ∀ (p : Nat) (m : Rat) (f : Nat) (i : Nat) (acc : List (Nat × JNum)),
      ClockInv (processLoop p m f s i acc).1 :=
    fun p m f i acc => ClockInv_processLoop p m f s i acc h
  unfold processInFlightRequests
  simp only []
  repeat' split
  all_goals first
    | exact h
    | exact hloop _ _ _ _ _
    | (refine ⟨(hloop _ _ _ _ _).1, (hloop _ _ _ _ _).2.1, fun hnone => ?_⟩
       exact absurd (Option.isNone_iff_eq_none.mpr hnone) (by assumption))

/-- Claim C5: in every group state reachable from construction through any
    sequence of start and stop signals and processed ticks, the interval
    timer exists iff the in-flight set is non-empty, at most one timer is
    live at a time, and while no timer runs the tick and second counters are
    both 0. -/
theorem c5_clock_invariant (options : IConfig) (events : List GroupEvent) :
    ClockInv (runEvents (initGroup options) events) := by
  have h : ∀ (evs : List GroupEvent) (s : GroupState), ClockInv s →
      ClockInv (runEvents s evs) := by
    intro evs
    induction evs with
    | nil => intro s hs; exact hs
    | cons e rest ih =>
      intro s hs
      apply ih
      cases e with
      | start c => exact ClockInv_handleRequestStart s c hs
      | stop x => exact ClockInv_handleRequestStop s x hs
      | tick now => exact ClockInv_tick s now hs
  exact h events _ (ClockInv_initGroup options)

/-! ### Claim C8: every remaining channel is processed exactly once -/

theorem map_eraseIdx_comm {α β : Type} (f : α → β) :
    ∀ (l : List α) (i : Nat), (l.eraseIdx i).map f = (l.map f).eraseIdx i
  | [], _ => by simp
  | _ :: _, 0 => by simp
  | a :: t, i + 1 => by
    simp only [List.eraseIdx_cons_succ, List.map_cons]
    rw [map_eraseIdx_comm f t i]

theorem map_id_set (l : List Channel) (i : Nat) (h : i < l.length)
    (a : Channel) (ha : a.id = l[i].id) :
    (l.set i a).map Channel.id = l.map Channel.id := by
  have hlt : i < (l.map Channel.id).length := by simpa using h
  rw [List.map_set]
  have hval : a.id = (l.map Channel.id)[i] := by
    rw [ha]
    exact (List.getElem_map Channel.id).symm
  rw [hval, list_set_self _ _ hlt]

theorem findIdx_id_at (x : Nat) :
    ∀ (l : List Channel) (i : Nat) (hi : i < l.length), l[i].id = x →
      (∀ j (hj : j < l.length), j < i → l[j].id ≠ x) →
      l.findIdx? (fun c => c.id == x) = some i := by
  intro l
  induction l with
  | nil =>
    intro i hi
    simp at hi
  | cons a t ih =>
    intro i hi hx hb
    match i with
    | 0 =>
      have ha : (a.id == x) = true := by
        simpa using hx
      simp [List.findIdx?_cons, ha]
    | i + 1 =>
      have hpa : (a.id == x) = false := by
        have h0 := hb 0 (by omega) (by omega)
        simpa using h0
      rw [List.findIdx?_cons, hpa]
      simp only [Bool.false_eq_true, if_false]
      rw [List.findIdx?_succ]
      rw [ih i (by simpa using hi) (by simpa using hx)
        (fun j hj hji => by
          have := hb (j + 1) (by simpa using hj) (by omega)
          simpa using this)]
      rfl

theorem handleRequestStop_inFlight_erase (s : GroupState) (i : Nat)
    (hi : i < s.inFlightRequests.length)
    (hb : ∀ j (hj : j < s.inFlightRequests.length), j < i →
      s.inFlightRequests[j].id ≠ s.inFlightRequests[i].id) :
    (handleRequestStop s s.inFlightRequests[i].id).inFlightRequests =
      s.inFlightRequests.eraseIdx i := by
  have hfind : jsIndexOf s.inFlightRequests s.inFlightRequests[i].id = (i : Int) := by
    unfold jsIndexOf
    rw [findIdx_id_at _ _ i hi rfl hb]
  have hsplice : jsSpliceRemoveOne s.inFlightRequests (i : Int) =
      s.inFlightRequests.eraseIdx i := by
    unfold jsSpliceRemoveOne
    simp only []
    rw [if_neg (by omega)]
    congr 1
    rw [Int.toNat_natCast]
    exact min_eq_left hi.le
  unfold handleRequestStop
  simp only []
  rw [hfind, hsplice]
  split
  · rfl
  · rfl

theorem processOneStep_dichotomy (period : Nat) (mult : Rat) (s : GroupState)
    (i : Nat) (h : i < s.inFlightRequests.length)
    (hb : ∀ j (hj : j < s.inFlightRequests.length), j < i →
      s.inFlightRequests[j].id ≠ s.inFlightRequests[i].id) :
    (processOneStep period mult s i h).2.1 = s.inFlightRequests[i].id ∧
    (((processOneStep period mult s i h).1.inFlightRequests.map Channel.id =
        s.inFlightRequests.map Channel.id ∧
      (processOneStep period mult s i h).1.inFlightRequests.length =
        s.inFlightRequests.length) ∨
     ((processOneStep period mult s i h).1.inFlightRequests.map Channel.id =
        (s.inFlightRequests.map Channel.id).eraseIdx i ∧
      (processOneStep period mult s i h).1.inFlightRequests.length + 1 =
        s.inFlightRequests.length)) := by
  have hrid : (channelProcess s.inFlightRequests[i] (dispatchAmount s.config s.inFlightRequests.length period s.tickIndex i mult) s.config.isThrottled).1.id = s.inFlightRequests[i].id :=
    channelProcess_fst_id _ _ _
  have hids : ((s.inFlightRequests.set i (channelProcess s.inFlightRequests[i] (dispatchAmount s.config s.inFlightRequests.length period s.tickIndex i mult) s.config.isThrottled).1).map Channel.id) = s.inFlightRequests.map Channel.id :=
    map_id_set _ i h _ hrid
  have hset_len : i < (s.inFlightRequests.set i (channelProcess s.inFlightRequests[i] (dispatchAmount s.config s.inFlightRequests.length period s.tickIndex i mult) s.config.isThrottled).1).length := by
    simpa using h
  have hset_i : (s.inFlightRequests.set i (channelProcess s.inFlightRequests[i] (dispatchAmount s.config s.inFlightRequests.length period s.tickIndex i mult) s.config.isThrottled).1)[i] = (channelProcess s.inFlightRequests[i] (dispatchAmount s.config s.inFlightRequests.length period s.tickIndex i mult) s.config.isThrottled).1 :=
    List.getElem_set_self hset_len
  cases hstop : (channelProcess s.inFlightRequests[i] (dispatchAmount s.config s.inFlightRequests.length period s.tickIndex i mult) s.config.isThrottled).2.2 with
  | false =>
    have hstep : processOneStep period mult s i h =
        ({ s with inFlightRequests := s.inFlightRequests.set i (channelProcess s.inFlightRequests[i] (dispatchAmount s.config s.inFlightRequests.length period s.tickIndex i mult) s.config.isThrottled).1 }, (s.inFlightRequests[i].id, dispatchAmount s.config s.inFlightRequests.length period s.tickIndex i mult)) := by
      unfold processOneStep
      simp only [hstop, Bool.false_eq_true, if_false]
    refine ⟨?_, Or.inl ⟨?_, ?_⟩⟩
    · simp only [hstep]
    · simp only [hstep]
      exact hids
    · simp only [hstep, List.length_set]
  | true =>
    have hstep : processOneStep period mult s i h =
        (handleRequestStop { s with inFlightRequests := s.inFlightRequests.set i (channelProcess s.inFlightRequests[i] (dispatchAmount s.config s.inFlightRequests.length period s.tickIndex i mult) s.config.isThrottled).1 } (channelProcess s.inFlightRequests[i] (dispatchAmount s.config s.inFlightRequests.length period s.tickIndex i mult) s.config.isThrottled).1.id, (s.inFlightRequests[i].id, dispatchAmount s.config s.inFlightRequests.length period s.tickIndex i mult)) := by
      unfold processOneStep
      simp only [hstop, if_true]
    have hb1 : ∀ j (hj : j < (s.inFlightRequests.set i (channelProcess s.inFlightRequests[i] (dispatchAmount s.config s.inFlightRequests.length period s.tickIndex i mult) s.config.isThrottled).1).length), j < i →
        (s.inFlightRequests.set i (channelProcess s.inFlightRequests[i] (dispatchAmount s.config s.inFlightRequests.length period s.tickIndex i mult) s.config.isThrottled).1)[j].id ≠ (s.inFlightRequests.set i (channelProcess s.inFlightRequests[i] (dispatchAmount s.config s.inFlightRequests.length period s.tickIndex i mult) s.config.isThrottled).1)[i].id := by
      intro j hj hji
      have hj' : j < s.inFlightRequests.length := by simpa using hj
      have hne : i ≠ j := by omega
      rw [List.getElem_set_ne hne, hset_i, hrid]
      exact hb j hj' hji
    have herase := handleRequestStop_inFlight_erase { s with inFlightRequests := s.inFlightRequests.set i (channelProcess s.inFlightRequests[i] (dispatchAmount s.config s.inFlightRequests.length period s.tickIndex i mult) s.config.isThrottled).1 } i (by simpa using h) hb1
    dsimp only at herase
    rw [hset_i] at herase
    refine ⟨?_, Or.inr ⟨?_, ?_⟩⟩
    · simp only [hstep]
    · simp only [hstep, herase, map_eraseIdx_comm, hids]
    · simp only [hstep, herase]
      rw [List.length_eraseIdx_of_lt (by simpa using h)]
      simp only [List.length_set]
      omega

theorem processLoop_count (period : Nat) (mult : Rat) :
    ∀ (fuel : Nat) (s : GroupState) (i : Nat) (acc : List (Nat × JNum)),
      2 * s.inFlightRequests.length - i < fuel →
      (s.inFlightRequests.map Channel.id).Nodup →
      (∀ x ∈ (s.inFlightRequests.map Channel.id).take i,
        (acc.map Prod.fst).count x = 1) →
      (∀ x ∈ (s.inFlightRequests.map Channel.id).drop i,
        (acc.map Prod.fst).count x = 0) →
      ∀ x ∈ (processLoop period mult fuel s i acc).1.inFlightRequests.map Channel.id,
        ((processLoop period mult fuel s i acc).2.map Prod.fst).count x = 1 := by
  intro fuel
  induction fuel with
  | zero =>
    intro s i acc hfuel
    exact absurd hfuel (by omega)
  | succ fuel ih =>
    intro s i acc hfuel hnodup h1 h0
    by_cases hlt : i < s.inFlightRequests.length
    case neg =>
      rw [show processLoop period mult (fuel + 1) s i acc =
          (if h : i < s.inFlightRequests.length then
            if (processOneStep period mult s i h).1.inFlightRequests.length <
                s.inFlightRequests.length then
              processLoop period mult fuel (processOneStep period mult s i h).1 i
                (acc ++ [(processOneStep period mult s i h).2])
            else
              processLoop period mult fuel (processOneStep period mult s i h).1 (i + 1)
                (acc ++ [(processOneStep period mult s i h).2])
          else (s, acc)) from rfl]
      rw [dif_neg hlt]
      intro x hx
      have hx' : x ∈ s.inFlightRequests.map Channel.id := hx
      have htake : (s.inFlightRequests.map Channel.id).take i =
          s.inFlightRequests.map Channel.id :=
        List.take_of_length_le (by simpa using not_lt.mp hlt)
      exact h1 x (htake.symm ▸ hx')
    case pos =>
      have hi1 : i < (s.inFlightRequests.map Channel.id).length := by simpa using hlt
      have hb : ∀ j (hj : j < s.inFlightRequests.length), j < i →
          s.inFlightRequests[j].id ≠ s.inFlightRequests[i].id := by
        intro j hj hji heq
        have hj1 : j < (s.inFlightRequests.map Channel.id).length := by simpa using hj
        have heq1 : (s.inFlightRequests.map Channel.id).get ⟨j, hj1⟩ =
            (s.inFlightRequests.map Channel.id).get ⟨i, hi1⟩ := by
          simp only [List.get_eq_getElem, List.getElem_map]
          exact heq
        have hji' := (List.nodup_iff_injective_get.mp hnodup) heq1
        simp only [Fin.mk.injEq] at hji'
        omega
      obtain ⟨hid0, hcase⟩ := processOneStep_dichotomy period mult s i hlt hb
      have hii : (s.inFlightRequests.map Channel.id)[i] = s.inFlightRequests[i].id :=
        List.getElem_map Channel.id
      have hdropeq : (s.inFlightRequests.map Channel.id)[i] ::
          (s.inFlightRequests.map Channel.id).drop (i + 1) =
          (s.inFlightRequests.map Channel.id).drop i :=
        List.getElem_cons_drop _ i hi1
      have htakes : (s.inFlightRequests.map Channel.id).take (i + 1) =
          (s.inFlightRequests.map Channel.id).take i ++
            [(s.inFlightRequests.map Channel.id)[i]] := by
        rw [List.take_succ, List.getElem?_eq_getElem hi1]
        rfl
      have hmemdrop : (s.inFlightRequests.map Channel.id)[i] ∈
          (s.inFlightRequests.map Channel.id).drop i := by
        rw [← hdropeq]
        exact List.mem_cons_self _ _
      have hdisj : List.Disjoint ((s.inFlightRequests.map Channel.id).take i)
          ((s.inFlightRequests.map Channel.id).drop i) :=
        List.disjoint_of_nodup_append (by rw [List.take_append_drop]; exact hnodup)
      have hdropnodup : ((s.inFlightRequests.map Channel.id).drop i).Nodup :=
        hnodup.sublist (List.drop_sublist _ _)
      have hheadnot : (s.inFlightRequests.map Channel.id)[i] ∉
          (s.inFlightRequests.map Channel.id).drop (i + 1) := by
        have hnd := hdropnodup
        rw [← hdropeq] at hnd
        exact (List.nodup_cons.mp hnd).1
      have hne_take : ∀ x ∈ (s.inFlightRequests.map Channel.id).take i,
          ¬((s.inFlightRequests[i].id == x) = true) := by
        intro x hx
        simp only [beq_iff_eq]
        intro heq
        exact hdisj hx ((hii.trans heq) ▸ hmemdrop)
      have hne_drop : ∀ x ∈ (s.inFlightRequests.map Channel.id).drop (i + 1),
          ¬((s.inFlightRequests[i].id == x) = true) := by
        intro x hx
        simp only [beq_iff_eq]
        intro heq
        exact hheadnot ((hii.trans heq).symm ▸ hx)
      have hsnd : [(processOneStep period mult s i hlt).2].map Prod.fst =
          [s.inFlightRequests[i].id] := by
        simp only [List.map_cons, List.map_nil, hid0]
      have htklen : ((s.inFlightRequests.map Channel.id).take i).length = i := by
        rw [List.length_take]
        omega
      rw [show processLoop period mult (fuel + 1) s i acc =
          (if h : i < s.inFlightRequests.length then
            if (processOneStep period mult s i h).1.inFlightRequests.length <
                s.inFlightRequests.length then
              processLoop period mult fuel (processOneStep period mult s i h).1 i
                (acc ++ [(processOneStep period mult s i h).2])
            else
              processLoop period mult fuel (processOneStep period mult s i h).1 (i + 1)
                (acc ++ [(processOneStep period mult s i h).2])
          else (s, acc)) from rfl]
      rw [dif_pos hlt]
      rcases hcase with ⟨hmap, hlen⟩ | ⟨hmap, hlen⟩
      · rw [if_neg (by rw [hlen]; exact lt_irrefl _)]
        apply ih
        · rw [hlen]
          omega
        · rw [hmap]
          exact hnodup
        · intro x hx
          rw [hmap, htakes, List.mem_append, List.mem_singleton] at hx
          rcases hx with hx | rfl
          · rw [List.map_append, List.count_append, h1 x hx, hsnd,
              List.count_singleton, if_neg (hne_take x hx)]
          · rw [List.map_append, List.count_append, h0 _ hmemdrop, hsnd, hii,
              List.count_singleton, if_pos (beq_self_eq_true _)]
        · intro x hx
          rw [hmap] at hx
          have hxdropi : x ∈ (s.inFlightRequests.map Channel.id).drop i := by
            rw [← hdropeq]
            exact List.mem_cons_of_mem _ hx
          rw [List.map_append, List.count_append, h0 x hxdropi, hsnd,
            List.count_singleton, if_neg (hne_drop x hx)]
      · rw [if_pos (by omega)]
        apply ih
        · omega
        · rw [hmap]
          exact hnodup.sublist (List.eraseIdx_sublist _ _)
        · intro x hx
          rw [hmap, List.eraseIdx_eq_take_drop_succ, List.take_left' htklen] at hx
          rw [List.map_append, List.count_append, h1 x hx, hsnd,
            List.count_singleton, if_neg (hne_take x hx)]
        · intro x hx
          rw [hmap, List.eraseIdx_eq_take_drop_succ, List.drop_left' htklen] at hx
          have hxdropi : x ∈ (s.inFlightRequests.map Channel.id).drop i := by
            rw [← hdropeq]
            exact List.mem_cons_of_mem _ hx
          rw [List.map_append, List.count_append, h0 x hxdropi, hsnd,
            List.count_singleton, if_neg (hne_drop x hx)]

theorem processInFlightRequests_fst_inFlight (s : GroupState) (now : Rat)
    (hdue : (s.config.isThrottled && s.hasTicked &&
      decide ((if s.hasTicked then now - s.lastTickTime else 0) <
        s.config.tickDurationMs)) = false) :
    (processInFlightRequests s now).1.inFlightRequests =
      (processLoop (s.secondIndex % s.inFlightRequests.length)
        (max 1 ((if s.hasTicked then now - s.lastTickTime else 0) /
          s.config.tickDurationMs))
        (2 * s.inFlightRequests.length + 1) s 0 []).1.inFlightRequests := by
  unfold processInFlightRequests
  simp only [hdue, Bool.false_eq_true, if_false]
  repeat' split
  all_goals rfl

/-- Claim C8: during a single due tick, a process call that removes its
    channel from the in-flight set makes the loop re-visit the same
    positional index, so that every channel still present in the in-flight
    set when the tick's loop completes was passed to process exactly once
    during that tick: its id occurs exactly once in the tick's dispatch
    log (assuming the in-flight channel ids are distinct). -/
theorem c8_remaining_processed_once (s : GroupState) (now : Rat)
    (hnodup : (s.inFlightRequests.map Channel.id).Nodup)
    (hdue : (s.config.isThrottled && s.hasTicked &&
      decide ((if s.hasTicked then now - s.lastTickTime else 0) <
        s.config.tickDurationMs)) = false) :
    ∀ c ∈ (processInFlightRequests s now).1.inFlightRequests,
      ((processInFlightRequests s now).2.map Prod.fst).count c.id = 1 := by
  intro c hc
  have hfst := processInFlightRequests_fst_inFlight s now hdue
  have hsnd := processInFlightRequests_snd_eq s now hdue
  rw [hfst] at hc
  rw [hsnd]
  have hmem : c.id ∈ (processLoop (s.secondIndex % s.inFlightRequests.length)
      (max 1 ((if s.hasTicked then now - s.lastTickTime else 0) /
        s.config.tickDurationMs))
      (2 * s.inFlightRequests.length + 1) s 0 []).1.inFlightRequests.map Channel.id :=
    List.mem_map_of_mem Channel.id hc
  exact processLoop_count _ _ _ s 0 [] (by omega) hnodup
    (by intro x hx; simp at hx) (by intro x hx; rfl) c.id hmem

theorem c8_remaining_processed_once_witness :
    ((processInFlightRequests c8State 0).2.map Prod.fst).count 2 = 1 :=
  c8_remaining_processed_once c8State 0 (by decide) (by decide)
    { id := 2, pendingBytesCount := 100, pendingBytesReadIndex := 0 } (by decide)
